import Mathlib

/-!
Verification development for the frawk backend slice: a shallow embedding of
the runtime value layer (`src/runtime/mod.rs`: the adaptive field vector
`LazyVec`, the lazily populated `Registry` caches) and of the Cranelift code
generator (`src/codegen/clir.rs`: register binding, refcount bookkeeping,
external-call plumbing and intrinsic dispatch), together with theorems that
settle the specified properties of these components.
-/

set_option autoImplicit false

namespace FrawkSpec

/-! ## Shared helper: the Rust cast `n as i64` on a 64-bit platform -/

/-- Embedding of the Rust cast `ix as i64` (usize to i64 on a 64-bit target):
the value is reduced modulo 2^64 and the low 64 bits are reinterpreted as a
signed two-complement integer. -/
def asI64 (n : Nat) : Int :=
  if n % 2 ^ 64 < 2 ^ 63 then ((n % 2 ^ 64 : Nat) : Int)
  else ((n % 2 ^ 64 : Nat) : Int) - 2 ^ 64

theorem asI64_inj {a b : Nat} (ha : a < 2 ^ 64) (hb : b < 2 ^ 64)
    (h : asI64 a = asI64 b) : a = b := by
  unfold asI64 at h
  simp only [Nat.mod_eq_of_lt ha, Nat.mod_eq_of_lt hb] at h
  split at h <;> split at h <;> omega

/-! ## The adaptive field vector (`LazyVec<T> = Either<Vec<T>, IntMap<T>>`)

`IntMap<T> = SharedMap<i64, T>` is a hash map from `i64` keys to values; we
model its contents as an association list in which the most recently inserted
entry for a key shadows older ones (exactly the observable behaviour of
`HashMap::insert` / `HashMap::get`). -/

/-- Model of `common::Either`, the two-representation sum used by `LazyVec`. -/
inductive Either (L R : Type) where
  | left (l : L)
  | right (r : R)
  deriving DecidableEq

/-- Contents of an `IntMap<T>` (a `SharedMap<i64, T>`), as an association
list; lookup takes the first (most recently inserted) entry for a key. -/
abbrev IntMap (T : Type) : Type := List (Int × T)

/-- Embedding of `HashMap::get` on the association-list contents. -/
def IntMap.lookup {T : Type} : IntMap T → Int → Option T
  | [], _ => none
  | (k, t) :: m, i => if k = i then some t else IntMap.lookup m i

/-- Embedding of `HashMap::insert`: the new entry shadows any older one. -/
def IntMap.insert {T : Type} (m : IntMap T) (k : Int) (t : T) : IntMap T :=
  (k, t) :: m

/-- The adaptive field vector: `type LazyVec<T> = Either<Vec<T>, IntMap<T>>`. -/
abbrev LazyVec (T : Type) : Type := Either (List T) (IntMap T)

/-- Embedding of `LazyVec::clear`: in the dense arm the vector is emptied in
place (`v.clear()`), in the sparse arm the whole value is replaced by
`Either::Left(Default::default())`; both leave an empty dense vector. -/
def LazyVec.clear {T : Type} : LazyVec T → LazyVec T
  | .left _ => .left []
  | .right _ => .left []

/-- Embedding of `LazyVec::len`. -/
def LazyVec.len {T : Type} : LazyVec T → Nat
  | .left v => v.length
  | .right m => m.length

/-- Embedding of `LazyVec::get`: `v.get(ix).cloned()` in the dense arm,
`m.get(&(ix as i64))` in the sparse arm. The method takes `&self`. -/
def LazyVec.get {T : Type} : LazyVec T → Nat → Option T
  | .left v, ix => v[ix]?
  | .right m, ix => IntMap.lookup m (asI64 ix)

/-- State-passing view of `LazyVec::get`: the source method takes `&self`, so
the receiver is handed back unchanged next to the result. -/
def LazyVec.getS {T : Type} (lv : LazyVec T) (ix : Nat) : Option T × LazyVec T :=
  (LazyVec.get lv ix, lv)

/-- Embedding of the dense-to-sparse conversion
`v.drain(..).enumerate().map(|(ix, t)| (ix as i64, t)).collect::<IntMap<T>>()`,
generalized over the index the enumeration starts from. -/
def toIntMapFrom {T : Type} : Nat → List T → IntMap T
  | _, [] => []
  | n, t :: ts => (asI64 n, t) :: toIntMapFrom (n + 1) ts

/-- The conversion as performed in `LazyVec::insert` (enumeration from 0). -/
def toIntMap {T : Type} (v : List T) : IntMap T := toIntMapFrom 0 v

/-- Embedding of `LazyVec::insert`. In the dense arm: in-range indices
overwrite in place, `ix == len` appends, indices within the 16-slot slack
window back-fill with `Default::default()` and then append, and indices at or
beyond `len + 16` leave the converted map via `break Either::Right(...)` —
note that the `break` exits before any insertion of `t`, exactly as in the
source. In the sparse arm the pair is inserted into the map. -/
def LazyVec.insert {T : Type} [Inhabited T] (lv : LazyVec T) (ix : Nat) (t : T) :
    LazyVec T :=
  match lv with
  | .left v =>
    if ix < v.length then
      .left (v.set ix t)
    else if ix = v.length then
      .left (v ++ [t])
    else if ix < v.length + 16 then
      .left ((v ++ List.replicate (ix - v.length) default) ++ [t])
    else
      .right (toIntMap v)
  | .right m => .right (IntMap.insert m (asI64 ix) t)

/-- Discriminator for the sparse representation. -/
def LazyVec.isSparse {T : Type} : LazyVec T → Bool
  | .left _ => false
  | .right _ => true

theorem lookup_toIntMapFrom {T : Type} (v : List T) :
    ∀ (n i : Nat), n + v.length ≤ 2 ^ 64 → n ≤ i → i < 2 ^ 64 →
      IntMap.lookup (toIntMapFrom n v) (asI64 i) = v[i - n]? := by
  induction v with
  | nil => intro n i _ _ _; simp [toIntMapFrom, IntMap.lookup]
  | cons t ts ih =>
    intro n i hlen hni hi
    by_cases hin : i = n
    · subst hin
      simp [toIntMapFrom, IntMap.lookup]
    · have hne : asI64 n ≠ asI64 i := by
        intro hEq
        exact hin (asI64_inj (by simp at hlen; omega) hi hEq).symm
      have hrec := ih (n + 1) i (by simp at hlen ⊢; omega) (by omega) hi
      have hix : i - n = (i - (n + 1)) + 1 := by omega
      simp only [toIntMapFrom, IntMap.lookup, if_neg hne, hrec, hix,
        List.getElem?_cons_succ]

/-- C4: for the dense form of the adaptive field vector, `insert(ix, t)` with
`ix < len` overwrites in place; `ix == len` appends; `ix` strictly beyond
`len` but within the 16-slot slack window back-fills with default values and
then appends, staying dense; `ix` at or beyond `len + 16` converts the whole
structure in one pass into the sparse integer-keyed map, preserving every
prior entry at its original index as key. -/
theorem lazyvec_insert_adaptive {T : Type} [Inhabited T] (v : List T) (ix : Nat) (t : T) :
    (ix < v.length →
      LazyVec.insert (Either.left v) ix t = Either.left (v.set ix t)) ∧
    (ix = v.length →
      LazyVec.insert (Either.left v) ix t = Either.left (v ++ [t])) ∧
    (v.length < ix → ix < v.length + 16 →
      LazyVec.insert (Either.left v) ix t
        = Either.left ((v ++ List.replicate (ix - v.length) default) ++ [t])) ∧
    (v.length + 16 ≤ ix → v.length ≤ 2 ^ 64 →
      LazyVec.insert (Either.left v) ix t = Either.right (toIntMap v) ∧
      ∀ i : Nat, i < v.length →
        LazyVec.get (LazyVec.insert (Either.left v) ix t) i = v[i]?) := by
  refine ⟨?_, ?_, ?_, ?_⟩
  · intro h
    simp [LazyVec.insert, h]
  · intro h
    simp [LazyVec.insert, h]
  · intro h1 h2
    simp only [LazyVec.insert]
    rw [if_neg (by omega), if_neg (by omega), if_pos h2]
  · intro h16 hlen
    have hform : LazyVec.insert (Either.left v) ix t = Either.right (toIntMap v) := by
      simp only [LazyVec.insert]
      rw [if_neg (by omega), if_neg (by omega), if_neg (by omega)]
    refine ⟨hform, ?_⟩
    intro i hi
    rw [hform]
    have := lookup_toIntMapFrom v 0 i (by omega) (Nat.zero_le i) (by omega)
    simpa [LazyVec.get, toIntMap] using this

/-- Witness for the C4 theorem: inserting into the dense vector
`[10, 11, 12, 13]` at index 1 (overwrite), 4 (append), 6 (back-fill within
the slack window), and 500 (conversion to the sparse form, preserving the
four prior entries, illustrated by the entry at index 2). -/
theorem lazyvec_insert_adaptive_witness :
    (LazyVec.insert (Either.left [10, 11, 12, 13]) 1 (99 : Nat)
       = Either.left [10, 99, 12, 13]) ∧
    (LazyVec.insert (Either.left [10, 11, 12, 13]) 4 (99 : Nat)
       = Either.left [10, 11, 12, 13, 99]) ∧
    (LazyVec.insert (Either.left [10, 11, 12, 13]) 6 (99 : Nat)
       = Either.left [10, 11, 12, 13, 0, 0, 99]) ∧
    (LazyVec.insert (Either.left [10, 11, 12, 13]) 500 (99 : Nat)
       = Either.right (toIntMap [10, 11, 12, 13]) ∧
     LazyVec.get (LazyVec.insert (Either.left [10, 11, 12, 13]) 500 (99 : Nat)) 2
       = some 12) := by
  refine ⟨?_, ?_, ?_, ?_, ?_⟩
  · exact ((lazyvec_insert_adaptive [10, 11, 12, 13] 1 99).1 (by decide)).trans (by decide)
  · exact ((lazyvec_insert_adaptive [10, 11, 12, 13] 4 99).2.1 (by decide)).trans (by decide)
  · exact (((lazyvec_insert_adaptive [10, 11, 12, 13] 6 99).2.2.1
      (by decide) (by decide))).trans (by decide)
  · exact ((lazyvec_insert_adaptive [10, 11, 12, 13] 500 99).2.2.2
      (by decide) (by norm_num)).1
  · exact (((lazyvec_insert_adaptive [10, 11, 12, 13] 500 99).2.2.2
      (by decide) (by norm_num)).2 2 (by decide)).trans (by decide)

/-- C5: the dense-to-sparse conversion of the adaptive field vector is
one-directional under `insert` (a sparse vector stays sparse), `get` takes
the receiver by shared reference and hands it back unchanged next to its
`Option` result, and `clear` always resets to the dense empty form — also
after a conversion to the sparse form. -/
theorem lazyvec_sparse_one_directional {T : Type} [Inhabited T]
    (lv : LazyVec T) (ix : Nat) (t : T) :
    LazyVec.clear lv = Either.left [] ∧
    (LazyVec.isSparse lv = true → LazyVec.isSparse (LazyVec.insert lv ix t) = true) ∧
    LazyVec.getS lv ix = (LazyVec.get lv ix, lv) := by
  refine ⟨?_, ?_, rfl⟩
  · cases lv <;> rfl
  · cases lv with
    | left v => intro h; simp [LazyVec.isSparse] at h
    | right m => intro _; rfl

/-- Witness for the C5 theorem on a concrete sparse vector: `clear` resets it
to the dense empty form and `insert` keeps it sparse. -/
theorem lazyvec_sparse_one_directional_witness :
    LazyVec.clear (Either.right [((0 : Int), (5 : Nat))] : LazyVec Nat)
      = Either.left [] ∧
    LazyVec.isSparse
      (LazyVec.insert (Either.right [((0 : Int), (5 : Nat))] : LazyVec Nat) 3 7)
      = true := by
  have h := lazyvec_sparse_one_directional
    (Either.right [((0 : Int), (5 : Nat))] : LazyVec Nat) 3 7
  exact ⟨h.1, h.2.1 rfl⟩

/-! ## The lazily populated caches (`Registry<T>`)

`Registry<T>` holds `cached: HashMap<Rc<str>, T>`; the pattern cache and the
two file-handle caches are specializations of it. We model the hash map as an
association list over the key CONTENT (an `Rc<str>` hashes and compares by
the text it holds). -/

/-- Modelled from the spec: the runtime string type `Str` (its implementation
file `str_impl.rs` is not among the given sources). Per the spec, a runtime
string is a text content that may live in any of several distinct buffers, and
`clone_str` hands out the content by value so the originating buffer can be
freed or mutated afterwards. We model a `Str` as its content paired with the
identity of the buffer holding it. -/
structure Str where
  content : String
  bufId : Nat
  deriving DecidableEq

/-- Model of `Str::clone_str`: copies the text content out, by value. -/
def Str.clone_str (s : Str) : String := s.content

/-- Contents of the `cached` hash map of a `Registry<T>`. -/
abbrev Registry (T : Type) : Type := List (String × T)

/-- Embedding of a hash-map lookup keyed by string content. -/
def Registry.lookup {T : Type} : Registry T → String → Option T
  | [], _ => none
  | (k, t) :: m, s => if k = s then some t else Registry.lookup m s

/-- In-place mutation of the entry under an existing key — the effect of the
`getter` running on `o.get_mut()` in the occupied branch. -/
def Registry.update {T : Type} : Registry T → String → T → Registry T
  | [], _, _ => []
  | (k, t) :: m, s, t2 =>
    if k = s then (k, t2) :: m else (k, t) :: Registry.update m s t2

/-- Embedding of `Registry::get_fallible`. The key is `s.clone_str()` — the
content, copied by value. On an occupied entry the getter runs on the cached
value (mutably: the returned second component is written back). On a vacant
entry the constructor `new` runs on the key text; an error propagates via `?`
with nothing inserted, otherwise the getter runs on the fresh value, the
(possibly mutated) value is inserted, and only then is the getter result
returned. The `getter` is modelled state-passing, as it takes `&mut T`. -/
def Registry.get_fallible {T R : Type} (reg : Registry T) (s : Str)
    (new : String → Except String T) (getter : T → Except String R × T) :
    Except String R × Registry T :=
  let k_str := s.clone_str
  match Registry.lookup reg k_str with
  | some t =>
      let gr := getter t
      (gr.1, Registry.update reg k_str gr.2)
  | none =>
      match new k_str with
      | .error e => (.error e, reg)
      | .ok t =>
          let gr := getter t
          (gr.1, (k_str, gr.2) :: reg)

/-- Embedding of `Registry::get`, the infallible-getter wrapper used by the
pattern cache (`RegexCache::with_regex`). -/
def Registry.get {T R : Type} (reg : Registry T) (s : Str)
    (new : String → Except String T) (getter : T → R × T) :
    Except String R × Registry T :=
  Registry.get_fallible reg s new (fun t => ((Except.ok (getter t).1), (getter t).2))

/-- C6: Registry-based caches are keyed by string content. Two lookups whose
keys are textually equal but distinctly allocated behave identically (same
result, same resulting cache); on an occupied entry the caller-supplied
constructor is irrelevant (it is not run again for a key content already
cached); and after a first use that constructed a value, that one value is
the cached entry found under the other, distinctly allocated key. -/
theorem registry_keyed_by_content {T R : Type} (reg : Registry T) (k1 k2 : Str)
    (hc : k1.content = k2.content)
    (new : String → Except String T) (getter : T → Except String R × T) :
    Registry.get_fallible reg k1 new getter = Registry.get_fallible reg k2 new getter
    ∧ (∀ t0, Registry.lookup reg k1.content = some t0 →
        ∀ new2 : String → Except String T,
          Registry.get_fallible reg k1 new getter
            = Registry.get_fallible reg k1 new2 getter)
    ∧ (∀ t0, Registry.lookup reg k1.content = none → new k1.content = .ok t0 →
        Registry.lookup (Registry.get_fallible reg k1 new getter).2 k2.content
          = some (getter t0).2) := by
  refine ⟨?_, ?_, ?_⟩
  · simp only [Registry.get_fallible, Str.clone_str, hc]
  · intro t0 hocc new2
    simp only [Registry.get_fallible, Str.clone_str, hocc]
  · intro t0 hmiss hnew
    simp only [Registry.get_fallible, Str.clone_str, hmiss, hnew]
    simp [Registry.lookup, hc]

/-- Witness for the C6 theorem: two distinctly allocated copies of the text
key produce the same cache state, and the entry constructed through the first
key is found through the second. -/
theorem registry_keyed_by_content_witness :
    Registry.get_fallible ([] : Registry Nat) ⟨"pat", 0⟩
        (fun s => Except.ok s.length) (fun t => (Except.ok t, t + 1))
      = Registry.get_fallible ([] : Registry Nat) ⟨"pat", 1⟩
        (fun s => Except.ok s.length) (fun t => (Except.ok t, t + 1))
    ∧ Registry.lookup
        (Registry.get_fallible ([] : Registry Nat) ⟨"pat", 0⟩
          (fun s => Except.ok s.length) (fun t => (Except.ok t, t + 1))).2 "pat"
      = some 4 := by
  have h := registry_keyed_by_content ([] : Registry Nat) ⟨"pat", 0⟩ ⟨"pat", 1⟩ rfl
    (fun s => Except.ok s.length) (fun t => (Except.ok t, t + 1))
  exact ⟨h.1, (h.2.2 3 rfl rfl).trans rfl⟩

/-- C10: on a cache miss in `Registry::get_fallible`, a constructor error
propagates and leaves the cache unchanged (so a later lookup with the same
key runs the constructor again), while a constructor success followed by a
failing first-use getter still inserts the constructed (getter-mutated) value
into the cache before the getter error is returned. -/
theorem registry_miss_error_paths {T R : Type} (reg : Registry T) (s : Str)
    (new : String → Except String T) (getter : T → Except String R × T)
    (hmiss : Registry.lookup reg s.content = none) :
    (∀ e, new s.content = .error e →
       Registry.get_fallible reg s new getter = (.error e, reg))
    ∧ (∀ t e t2, new s.content = .ok t → getter t = (.error e, t2) →
       Registry.get_fallible reg s new getter
         = (.error e, (s.content, t2) :: reg)) := by
  constructor
  · intro e hnew
    simp only [Registry.get_fallible, Str.clone_str, hmiss, hnew]
  · intro t e t2 hnew hget
    simp only [Registry.get_fallible, Str.clone_str, hmiss, hnew, hget]

/-- Witness for the C10 theorem: a failing constructor leaves the empty cache
empty, and a failing first write through a succeeding constructor still
caches the constructed value. -/
theorem registry_miss_error_paths_witness :
    Registry.get_fallible ([] : Registry Nat) ⟨"f.txt", 0⟩
        (fun _ => Except.error "failed to open file")
        (fun t => (Except.ok t, t))
      = (Except.error "failed to open file", ([] : Registry Nat))
    ∧ Registry.get_fallible ([] : Registry Nat) ⟨"f.txt", 0⟩
        (fun _ => Except.ok 7)
        (fun t => ((Except.error "failed to write to file" : Except String Unit), t + 1))
      = (Except.error "failed to write to file", [("f.txt", 8)]) := by
  constructor
  · exact (registry_miss_error_paths ([] : Registry Nat) ⟨"f.txt", 0⟩
      (fun _ => Except.error "failed to open file") (fun t => (Except.ok t, t))
      rfl).1 "failed to open file" rfl
  · exact ((registry_miss_error_paths ([] : Registry Nat) ⟨"f.txt", 0⟩
      (fun _ => Except.ok 7)
      (fun t => ((Except.error "failed to write to file" : Except String Unit), t + 1))
      rfl).2 7 "failed to write to file" 8 rfl rfl).trans rfl

/-! ## Register binding and refcount bookkeeping (`codegen/clir.rs`)

We embed `View::bind_val` / `View::get_val` together with the runtime effect
of the refcount calls they emit. Generation is straight-line per binding, so
the state carries both the syntactic trace of emitted instructions and the
heap state of the generated program at that point: the current value of every
Cranelift variable (`use_var` / `def_var`), the memory cells reachable through
pointer-valued slots, and each heap value refcount, with a record of values
whose refcount reached zero (freed storage). Values are abstract identities. -/

/-- The abstract type enumeration `compile::Ty`. -/
inductive Ty where
  | Null | Int | Float | Str
  | MapIntInt | MapIntFloat | MapIntStr | MapStrInt | MapStrFloat | MapStrStr
  | IterInt | IterStr
  deriving DecidableEq

/-- Debug-style rendering of a `Ty`, used inside error messages. -/
def tyName : Ty → String
  | .Null => "Null"
  | .Int => "Int"
  | .Float => "Float"
  | .Str => "Str"
  | .MapIntInt => "MapIntInt"
  | .MapIntFloat => "MapIntFloat"
  | .MapIntStr => "MapIntStr"
  | .MapStrInt => "MapStrInt"
  | .MapStrFloat => "MapStrFloat"
  | .MapStrStr => "MapStrStr"
  | .IterInt => "IterInt"
  | .IterStr => "IterStr"

/-- A Cranelift SSA value / runtime value identity. -/
abbrev Val := Nat

/-- A register reference: numeric identifier paired with its type (the source
`Ref` is the pair `(NumTy, Ty)`; `r.1` there is the type component, here it
is `r.2`). -/
abbrev Ref := Nat × Ty

/-- Debug-style rendering of a `Ref` (mirrors the `{:?}` formatting used by
the error macros). -/
def refDbg (r : Ref) : String :=
  "(" ++ toString r.1 ++ ", " ++ tyName r.2 ++ ")"

/-- The frawk-specific variable metadata `VarRef`. -/
structure VarRef where
  var : Nat
  is_global : Bool
  skip_drop : Bool
  deriving DecidableEq

/-- Association-list embedding of the `HashMap<Ref, VarRef>` lookup. -/
def lookupRef : List (Ref × VarRef) → Ref → Option VarRef
  | [], _ => none
  | (k, v) :: m, r => if k = r then some v else lookupRef m r

/-- The function-level state `Frame`. -/
structure Frame where
  vars : List (Ref × VarRef)
  runtime : Nat
  n_params : Nat
  n_vars : Nat

/-- One emitted instruction or runtime call, at the granularity the binding
claims are about. -/
inductive Emit where
  | callRefMap (v : Val)
  | callRefStr (v : Val)
  | callDrop (ty : Ty) (v : Val)
  | storeIns (v p : Val)
  | loadIns (p : Val)
  | defVarIns (var : Nat) (v : Val)
  | constInt (n : Int)
  deriving DecidableEq

/-- Generator-plus-runtime state while lowering one straight-line binding. -/
structure CGState where
  varVal : Nat → Val
  mem : Val → Val
  rc : Val → Nat
  freed : List Val
  trace : List Emit

/-- Runtime effect of one refcount increment on the tracked heap state. -/
def incRC (st : CGState) (v : Val) : CGState :=
  { st with rc := fun w => if w = v then st.rc v + 1 else st.rc w }

/-- Runtime effect of one refcount decrement: when the count drops from one
(or was already zero) the value storage is freed. -/
def decRC (st : CGState) (v : Val) : CGState :=
  if st.rc v ≤ 1 then
    { st with rc := fun w => if w = v then 0 else st.rc w,
              freed := st.freed ++ [v] }
  else
    { st with rc := fun w => if w = v then st.rc v - 1 else st.rc w }

/-- Embedding of `View::ref_val`: emits a call to `ref_map` for the six map
types and to `ref_str` for `Str` (the runtime increments the refcount of the
value), and is a noop for every other type. -/
def ref_val (st : CGState) (ty : Ty) (v : Val) : CGState :=
  match ty with
  | .MapIntInt | .MapIntFloat | .MapIntStr | .MapStrInt | .MapStrFloat | .MapStrStr =>
      incRC { st with trace := st.trace ++ [.callRefMap v] } v
  | .Str => incRC { st with trace := st.trace ++ [.callRefStr v] } v
  | .Null | .Int | .Float | .IterInt | .IterStr => st

/-- Embedding of `View::drop_val`: emits a call to the per-type drop function
and is a noop for non-heap types. For map types the argument is the map value
itself, whose refcount the runtime decrements; for `Str` the call sites in
`bind_val` pass the pointer to the string slot, and the runtime `drop_str`
releases the slot occupant, i.e. the value currently stored at the pointer. -/
def drop_val (st : CGState) (ty : Ty) (v : Val) : CGState :=
  match ty with
  | .MapIntInt | .MapIntFloat | .MapIntStr | .MapStrInt | .MapStrFloat | .MapStrStr =>
      decRC { st with trace := st.trace ++ [.callDrop ty v] } v
  | .Str => decRC { st with trace := st.trace ++ [.callDrop ty v] } (st.mem v)
  | .Null | .Int | .Float | .IterInt | .IterStr => st

/-- Error message of `bind_val` on a register with no binding in the frame. -/
def msgUnboundStore (r : Ref) : String :=
  "unbound reference in current frame: " ++ refDbg r

/-- Error message of `bind_val` on an iterator-typed register. -/
def msgStoreIter : String := "attempting to store an iterator value"

/-- Error message of `get_val` on a register with no binding in the frame. -/
def msgUnboundLoad (r : Ref) : String :=
  "loading an unbound variable: " ++ refDbg r

/-- Error message of `get_val` on an iterator-typed register. -/
def msgLoadIter : String := "attempting to load an iterator pointer"

/-- Embedding of `View::bind_val`. Scalars store through the pointer (global)
or redefine the local. For `Str`, globals and locals are treated the same:
the occupant of the slot is dropped FIRST and the new value is then stored,
with no refcount increment of the new value anywhere in the sequence. For map
types the new value is reffed first, then the old occupant (the loaded
pointee for globals, the current local value otherwise) is dropped, and the
new value is stored / the local redefined. `Null` is a noop; iterator types
and unbound registers are recoverable errors. -/
def bind_val (st : CGState) (f : Frame) (r : Ref) (v : Val) :
    Except String CGState :=
  match lookupRef f.vars r with
  | none => .error (msgUnboundStore r)
  | some vr =>
    match r.2 with
    | .Int | .Float =>
        if vr.is_global then
          .ok { st with trace := st.trace ++ [.storeIns v (st.varVal vr.var)],
                        mem := fun q => if q = st.varVal vr.var then v else st.mem q }
        else
          .ok { st with trace := st.trace ++ [.defVarIns vr.var v],
                        varVal := fun w => if w = vr.var then v else st.varVal w }
    | .Str =>
        let p := st.varVal vr.var
        let st1 := drop_val st .Str p
        .ok { st1 with trace := st1.trace ++ [.storeIns v p],
                       mem := fun q => if q = p then v else st1.mem q }
    | .MapIntInt | .MapIntFloat | .MapIntStr | .MapStrInt | .MapStrFloat | .MapStrStr =>
        let st1 := ref_val st r.2 v
        if vr.is_global then
          let p := st1.varVal vr.var
          let pointee := st1.mem p
          let st2 := { st1 with trace := st1.trace ++ [.loadIns p] }
          let st3 := drop_val st2 r.2 pointee
          .ok { st3 with trace := st3.trace ++ [.storeIns v p],
                         mem := fun q => if q = p then v else st3.mem q }
        else
          let cur := st1.varVal vr.var
          let st2 := drop_val st1 r.2 cur
          .ok { st2 with trace := st2.trace ++ [.defVarIns vr.var v],
                         varVal := fun w => if w = vr.var then v else st2.varVal w }
    | .Null => .ok st
    | .IterInt | .IterStr => .error msgStoreIter

/-- Embedding of `View::get_val`. Reading the `Null` type yields the zero
constant without touching storage; scalars and maps read the variable and,
for globals, load through the pointer; `Str` yields the variable value
directly; iterator reads and unbound registers are recoverable errors.
Reading emits no refcount operation. -/
def get_val (st : CGState) (f : Frame) (r : Ref) :
    Except String (Val × CGState) :=
  if r.2 = Ty.Null then
    .ok (0, { st with trace := st.trace ++ [.constInt 0] })
  else
    match lookupRef f.vars r with
    | none => .error (msgUnboundLoad r)
    | some vr =>
      match r.2 with
      | .MapIntInt | .MapIntFloat | .MapIntStr | .MapStrInt | .MapStrFloat
      | .MapStrStr | .Int | .Float =>
          if vr.is_global then
            .ok (st.mem (st.varVal vr.var),
                 { st with trace := st.trace ++ [.loadIns (st.varVal vr.var)] })
          else
            .ok (st.varVal vr.var, st)
      | .Str => .ok (st.varVal vr.var, st)
      | .IterInt | .IterStr => .error msgLoadIter
      | .Null => .ok (0, st)

/-- A concrete frame with one local `Str` register `(0, Str)` stored in
Cranelift variable 0. -/
def strFrame : Frame :=
  { vars := [((0, Ty.Str), ⟨0, false, false⟩)],
    runtime := 0, n_params := 0, n_vars := 1 }

/-- A concrete state: variable 0 holds the string-slot pointer 1, the slot
holds the string value 2, and that value has refcount 1 (one owner: this very
register). Nothing is freed and nothing has been emitted yet. -/
def strState : CGState :=
  { varVal := fun n => if n = 0 then 1 else 0,
    mem := fun q => if q = 1 then 2 else 0,
    rc := fun w => if w = 2 then 1 else 0,
    freed := [],
    trace := [] }

/-- C1: the claim requires `bind_val` to acquire the ownership stake of the
new value (a refcount increment) before releasing the stake of the current
occupant, for `Str` as well as for the map types. The code path for `Str`
refutes this: evaluating `bind_val` on a bound `Str` register shows the
emitted sequence is exactly a drop of the slot occupant followed by the store
of the new value — it contains no `ref_str` (or any other refcount increment)
of the new value at all, so the release happens without a prior acquire. -/
theorem str_bind_emits_no_ref :
    (bind_val strState strFrame (0, Ty.Str) 3).map (fun st => st.trace)
      = Except.ok [Emit.callDrop Ty.Str 1, Emit.storeIns 3 1] := by
  rfl

/-- C2: the claim requires refcount conservation, in particular that
self-assignment must not free or corrupt the bound storage, for `Str` as well
as for every map type. The `Str` path refutes this: rebinding the register to
the very string it currently holds (refcount 1, one owner) first drops the
occupant — the refcount reaches zero and the storage is freed — and then
stores the now-dangling value back into the slot, which still points at it
afterwards with refcount 0. -/
theorem str_self_assign_premature_free :
    (bind_val strState strFrame (0, Ty.Str) 2).map
        (fun st => (st.freed, st.mem 1, st.rc 2))
      = Except.ok ([2], 2, 0) := by
  rfl

/-- C9: binding errors are surfaced as descriptive, recoverable failures at
generation time: `bind_val` on a register unbound in the current frame,
`bind_val` on a bound iterator-typed register, `get_val` on an unbound
register (of non-`Null` type), and `get_val` on a bound iterator-typed
register all return an error value carrying the message that names the
offending register or operation — the error return means nothing is emitted
or stored for the faulty instruction. -/
theorem binding_errors_recoverable (st : CGState) (f : Frame) (r : Ref) (v : Val) :
    (lookupRef f.vars r = none →
      bind_val st f r v = Except.error (msgUnboundStore r)) ∧
    (∀ vr, lookupRef f.vars r = some vr →
      (r.2 = Ty.IterInt ∨ r.2 = Ty.IterStr) →
      bind_val st f r v = Except.error msgStoreIter) ∧
    (r.2 ≠ Ty.Null → lookupRef f.vars r = none →
      get_val st f r = Except.error (msgUnboundLoad r)) ∧
    (∀ vr, lookupRef f.vars r = some vr →
      (r.2 = Ty.IterInt ∨ r.2 = Ty.IterStr) →
      get_val st f r = Except.error msgLoadIter) := by
  obtain ⟨id, ty⟩ := r
  refine ⟨?_, ?_, ?_, ?_⟩
  · intro h
    simp [bind_val, h]
  · intro vr hvr hiter
    rcases hiter with h | h <;> subst h <;> simp [bind_val, hvr]
  · intro hnull hnone
    simp only [get_val, if_neg hnull, hnone]
  · intro vr hvr hiter
    rcases hiter with h | h <;> subst h <;> simp [get_val, hvr]

/-- A concrete frame holding a bound `Str` register and a bound iterator
register, used to exercise the binding-error paths. -/
def errFrame : Frame :=
  { vars := [((0, Ty.Str), ⟨0, false, false⟩), ((1, Ty.IterInt), ⟨1, false, false⟩)],
    runtime := 0, n_params := 0, n_vars := 2 }

/-- Witness for the C9 theorem: the four binding-error cases at concrete
registers in a concrete frame. -/
theorem binding_errors_recoverable_witness :
    bind_val strState errFrame (2, Ty.Int) 5
      = Except.error (msgUnboundStore (2, Ty.Int)) ∧
    bind_val strState errFrame (1, Ty.IterInt) 5
      = Except.error msgStoreIter ∧
    get_val strState errFrame (2, Ty.Int)
      = Except.error (msgUnboundLoad (2, Ty.Int)) ∧
    get_val strState errFrame (1, Ty.IterInt)
      = Except.error msgLoadIter := by
  refine ⟨?_, ?_, ?_, ?_⟩
  · exact (binding_errors_recoverable strState errFrame (2, Ty.Int) 5).1 rfl
  · exact (binding_errors_recoverable strState errFrame (1, Ty.IterInt) 5).2.1
      ⟨1, false, false⟩ rfl (Or.inl rfl)
  · exact (binding_errors_recoverable strState errFrame (2, Ty.Int) 5).2.2.1
      (by decide) rfl
  · exact (binding_errors_recoverable strState errFrame (1, Ty.IterInt) 5).2.2.2
      ⟨1, false, false⟩ rfl (Or.inl rfl)

/-! ## External call plumbing (`View::call_external` / `call_external_void`)

The observed shape of a call site is the list of results the builder reports
for the emitted call instruction (`inst_results`). `expect` panics
unconditionally; `debug_assert!` checks its condition only in builds with
debug assertions enabled and is compiled out otherwise, which the flag below
makes explicit. -/

/-- Outcome of running a piece of generator code that may panic. -/
inductive ExecResult (α : Type) where
  | ok (a : α)
  | panicked (msg : String)
  deriving DecidableEq

/-- Embedding of `View::call_external` (a call registered as returning one
value): `iter.next().expect("expected return value")` panics unconditionally
when the call yields no result; the extra-result check is a `debug_assert!`
and runs only when `debugAssertions` is set. -/
def call_external (debugAssertions : Bool) (results : List Val) : ExecResult Val :=
  match results with
  | [] => .panicked "expected return value"
  | ret :: rest =>
      if debugAssertions ∧ rest ≠ [] then
        .panicked "assertion failed: iter.next().is_none()"
      else
        .ok ret

/-- Embedding of `View::call_external_void` (a call registered as void): the
only shape check is a `debug_assert!` that the call yields no results, so it
runs only when `debugAssertions` is set. -/
def call_external_void (debugAssertions : Bool) (results : List Val) :
    ExecResult Unit :=
  if debugAssertions ∧ results ≠ [] then
    .panicked "assertion failed: inst results of a void call must be empty"
  else
    .ok ()

/-- C3 counterexample: the claim says a call registered as void that is
observed to produce a result is an unconditional, non-recoverable fault that
is never silently ignored. With debug assertions disabled (the release
configuration) the observed result is silently ignored and generation
continues normally. -/
theorem void_call_mismatch_ignored_in_release :
    call_external_void false [7] = ExecResult.ok () := by
  rfl

/-- C3 as amended: a call registered as returning a value that observes no
result is an unconditional, non-recoverable panic, for any build
configuration; a void call observing results, and a value call observing more
than one result, panic only when debug assertions are enabled and are
silently ignored otherwise. -/
theorem call_shape_mismatch_behaviour (dbg : Bool) (results : List Val) :
    (results = [] → call_external dbg results
       = ExecResult.panicked "expected return value") ∧
    (dbg = true → ∀ a b rest, results = a :: b :: rest →
       call_external dbg results
         = ExecResult.panicked "assertion failed: iter.next().is_none()") ∧
    (dbg = true → results ≠ [] →
       call_external_void dbg results
         = ExecResult.panicked "assertion failed: inst results of a void call must be empty") ∧
    (dbg = false → call_external_void dbg results = ExecResult.ok ()) := by
  refine ⟨?_, ?_, ?_, ?_⟩
  · intro h; subst h; rfl
  · intro hdbg a b rest h
    subst h; subst hdbg
    simp [call_external]
  · intro hdbg hne
    subst hdbg
    simp [call_external_void, hne]
  · intro hdbg
    subst hdbg
    simp [call_external_void]

/-- Witness for the amended C3 theorem at concrete call shapes: a value call
with no observed result panics in both configurations; a void call observing
a result panics under debug assertions and is ignored without them. -/
theorem call_shape_mismatch_behaviour_witness :
    call_external true ([] : List Val)
      = ExecResult.panicked "expected return value" ∧
    call_external false ([] : List Val)
      = ExecResult.panicked "expected return value" ∧
    call_external true [4, 5]
      = ExecResult.panicked "assertion failed: iter.next().is_none()" ∧
    call_external_void true [7]
      = ExecResult.panicked "assertion failed: inst results of a void call must be empty" ∧
    call_external_void false [7, 8] = ExecResult.ok () := by
  refine ⟨?_, ?_, ?_, ?_, ?_⟩
  · exact (call_shape_mismatch_behaviour true []).1 rfl
  · exact (call_shape_mismatch_behaviour false []).1 rfl
  · exact (call_shape_mismatch_behaviour true [4, 5]).2.1 rfl 4 5 [] rfl
  · exact (call_shape_mismatch_behaviour true [7]).2.2.1 rfl (by decide)
  · exact (call_shape_mismatch_behaviour false [7, 8]).2.2.2 rfl

/-! ## Intrinsic dispatch (`View::call_intrinsic` and its helpers)

We embed the dispatch as a function from the operation tag to the machine
instruction (or external call) emitted for the result, paired with the value
of that result where the instruction semantics is exact and statically known.
External calls and floating-point operations whose IEEE result would require
a rounding model evaluate to `none`; floating-point values appear only where
the IEEE computation is exact (integral operands and results below 2^53), so
the rational model coincides with the machine behaviour. -/

/-- The comparison tags `codegen::Cmp`. -/
inductive Cmp where
  | EQ | LTE | LT | GTE | GT
  deriving DecidableEq

/-- The arithmetic tags `codegen::Arith`. -/
inductive Arith where
  | Mul | Minus | Add | Mod | Neg
  deriving DecidableEq

/-- The bitwise tags `builtins::Bitwise`. -/
inductive Bitwise where
  | Complement | And | Or | LogicalRightShift | ArithmeticRightShift
  | LeftShift | Xor
  deriving DecidableEq

/-- The math-function tags `builtins::FloatFunc`. -/
inductive FloatFunc where
  | Cos | Sin | Atan | Atan2 | Log | Log2 | Log10 | Sqrt | Exp
  deriving DecidableEq

/-- Cranelift ordered floating-point condition codes used by `cmp`. -/
inductive FloatCC where
  | Equal | LessThanOrEqual | LessThan | GreaterThanOrEqual | GreaterThan
  deriving DecidableEq

/-- Cranelift signed integer condition codes used by `cmp`. -/
inductive IntCC where
  | Equal | SignedLessThanOrEqual | SignedLessThan
  | SignedGreaterThanOrEqual | SignedGreaterThan
  deriving DecidableEq

/-- The runtime helpers reachable from the dispatch (the `external!` table),
plus raw-address calls for `Op::Intrinsic`. -/
inductive ExtFunc where
  | frawk_fprem | frawk_cos | frawk_sin | frawk_atan | frawk_atan2
  | frawk_log | frawk_log2 | frawk_log10 | frawk_exp | frawk_pow
  | addr (a : Nat)
  deriving DecidableEq

/-- The machine instruction emitted for the result of an intrinsic. -/
inductive ClirIns where
  | fmul | fsub | fadd | fneg
  | imul | isub | iadd | srem | ineg
  | bnot | band | bor | bxor | ushr | ishl
  | fdiv | sqrt | fcvt_to_sint_sat | fcvt_from_sint
  | fcmp (cc : FloatCC) | icmp (cc : IntCC) | bint
  | extCall (f : ExtFunc)
  deriving DecidableEq

/-- The operation tag `codegen::Op`. -/
inductive Op where
  | Cmp (is_float : Bool) (op : Cmp)
  | Arith (is_float : Bool) (op : Arith)
  | Bitwise (bw : Bitwise)
  | Math (ff : FloatFunc)
  | Div
  | Pow
  | FloatToInt
  | IntToFloat
  | Intrinsic (a : Nat)

/-- A machine value: a 64-bit signed integer, or a floating value modelled as
the exact rational it represents. -/
inductive MVal where
  | int (n : Int)
  | float (q : ℚ)
  deriving DecidableEq

/-- Whether a machine value carries the integer representation. -/
def MVal.isInt : MVal → Bool
  | .int _ => true
  | .float _ => false

/-- The unsigned 64-bit bit pattern of an i64 value. -/
def toU64 (x : Int) : Nat := (x % (2 ^ 64 : Int)).toNat

/-- Wrap an integer into i64 range (two-complement). -/
def wrapI64 (x : Int) : Int := asI64 (toU64 x)

/-- Semantics of the `ushr` instruction on i64: unsigned (zero-extending)
right shift of the 64-bit pattern, the shift amount taken mod the bit width. -/
def ushrSem (x y : Int) : Int := asI64 (toU64 x >>> (toU64 y % 64))

/-- Semantics of `ishl` on i64 (shift amount mod the bit width). -/
def ishlSem (x y : Int) : Int := asI64 ((toU64 x <<< (toU64 y % 64)) % 2 ^ 64)

/-- Semantics of `bnot` on i64. -/
def bnotSem (x : Int) : Int := asI64 (2 ^ 64 - 1 - toU64 x)

/-- Semantics of `band` on i64. -/
def bandSem (x y : Int) : Int := asI64 (Nat.land (toU64 x) (toU64 y))

/-- Semantics of `bor` on i64. -/
def borSem (x y : Int) : Int := asI64 (Nat.lor (toU64 x) (toU64 y))

/-- Semantics of `bxor` on i64. -/
def bxorSem (x y : Int) : Int := asI64 (Nat.xor (toU64 x) (toU64 y))

/-- Apply an exact binary integer semantics to the first two arguments (the
source indexes `args[0]` and `args[1]`; arity is the caller's obligation). -/
def evalBinInt (f : Int → Int → Int) (args : List MVal) : Option MVal :=
  match args.getD 0 (.int 0), args.getD 1 (.int 0) with
  | .int x, .int y => some (.int (f x y))
  | _, _ => none

/-- Apply an exact unary integer semantics to the first argument. -/
def evalUnInt (f : Int → Int) (args : List MVal) : Option MVal :=
  match args.getD 0 (.int 0) with
  | .int x => some (.int (f x))
  | _ => none

/-- Truth of a signed integer comparison. -/
def cmpIntHolds : Cmp → Int → Int → Bool
  | .EQ, x, y => decide (x = y)
  | .LTE, x, y => decide (x ≤ y)
  | .LT, x, y => decide (x < y)
  | .GTE, x, y => decide (y ≤ x)
  | .GT, x, y => decide (y < x)

/-- Ordered floating condition code chosen for each comparison tag. -/
def floatCCOf : Cmp → FloatCC
  | .EQ => .Equal
  | .LTE => .LessThanOrEqual
  | .LT => .LessThan
  | .GTE => .GreaterThanOrEqual
  | .GT => .GreaterThan

/-- Signed integer condition code chosen for each comparison tag. -/
def intCCOf : Cmp → IntCC
  | .EQ => .Equal
  | .LTE => .SignedLessThanOrEqual
  | .LT => .SignedLessThan
  | .GTE => .SignedGreaterThanOrEqual
  | .GT => .SignedGreaterThan

/-- Embedding of `View::cmp` followed by the `bool_to_int` widening: ordered
float comparison or signed integer comparison selected by `is_float`, the
boolean immediately widened to 0/1 in the integer representation. The IEEE
(NaN-aware) float comparison is not evaluated in the exact rational model. -/
def cmp (op : Cmp) (is_float : Bool) (args : List MVal) : ClirIns × Option MVal :=
  if is_float then
    (ClirIns.fcmp (floatCCOf op), none)
  else
    (ClirIns.icmp (intCCOf op),
     match args.getD 0 (.int 0), args.getD 1 (.int 0) with
     | .int x, .int y => some (.int (if cmpIntHolds op x y then 1 else 0))
     | _, _ => none)

/-- Embedding of `View::arith`: direct machine instructions in both domains,
except that floating remainder is routed to the external `_frawk_fprem`
helper. Floating results and the signed remainder are not evaluated here. -/
def arith (op : Arith) (is_float : Bool) (args : List MVal) : ClirIns × Option MVal :=
  if is_float then
    match op with
    | .Mul => (.fmul, none)
    | .Minus => (.fsub, none)
    | .Add => (.fadd, none)
    | .Mod => (.extCall .frawk_fprem, none)
    | .Neg => (.fneg, none)
  else
    match op with
    | .Mul => (.imul, evalBinInt (fun a b => wrapI64 (a * b)) args)
    | .Minus => (.isub, evalBinInt (fun a b => wrapI64 (a - b)) args)
    | .Add => (.iadd, evalBinInt (fun a b => wrapI64 (a + b)) args)
    | .Mod => (.srem, none)
    | .Neg => (.ineg, evalUnInt (fun a => wrapI64 (-a)) args)

/-- Embedding of `View::bitwise`: both right-shift variants emit the same
unsigned-shift instruction `ushr`. -/
def bitwise (op : Bitwise) (args : List MVal) : ClirIns × Option MVal :=
  match op with
  | .Complement => (.bnot, evalUnInt bnotSem args)
  | .And => (.band, evalBinInt bandSem args)
  | .Or => (.bor, evalBinInt borSem args)
  | .LogicalRightShift => (.ushr, evalBinInt ushrSem args)
  | .ArithmeticRightShift => (.ushr, evalBinInt ushrSem args)
  | .LeftShift => (.ishl, evalBinInt ishlSem args)
  | .Xor => (.bxor, evalBinInt bxorSem args)

/-- Embedding of `View::floatfunc`: every math function is an external call
except `Sqrt`, which has a direct machine instruction. -/
def floatfunc (op : FloatFunc) (_args : List MVal) : ClirIns × Option MVal :=
  match op with
  | .Cos => (.extCall .frawk_cos, none)
  | .Sin => (.extCall .frawk_sin, none)
  | .Atan => (.extCall .frawk_atan, none)
  | .Atan2 => (.extCall .frawk_atan2, none)
  | .Log => (.extCall .frawk_log, none)
  | .Log2 => (.extCall .frawk_log2, none)
  | .Log10 => (.extCall .frawk_log10, none)
  | .Sqrt => (.sqrt, none)
  | .Exp => (.extCall .frawk_exp, none)

/-- Rationals that the binary64 format represents exactly in the fragment we
evaluate: integral values of magnitude below 2^53. -/
def exactF64 (q : ℚ) : Bool := decide (q.den = 1 ∧ q.num.natAbs < 2 ^ 53)

/-- Exact evaluation of `fdiv` where the IEEE result provably equals the
rational result (integral operands and an integral quotient, all below 2^53);
`none` elsewhere. -/
def fdivExact (a b : MVal) : Option MVal :=
  match a, b with
  | .float x, .float y =>
      if exactF64 x ∧ exactF64 y ∧ y ≠ 0 ∧ exactF64 (x / y) then
        some (.float (x / y))
      else none
  | _, _ => none

/-- Exact evaluation of `fcvt_from_sint` (exact signed conversion) in the
range where binary64 represents the integer exactly. -/
def fcvtFromSint (a : MVal) : Option MVal :=
  match a with
  | .int n => if n.natAbs < 2 ^ 53 then some (.float (n : ℚ)) else none
  | .float _ => none

/-- Embedding of `View::call_intrinsic`: the toplevel dispatch from the
operation tag to the emitted instruction and (where exact) its result. `Div`
emits `fdiv` unconditionally; the conversions emit `fcvt_to_sint_sat` /
`fcvt_from_sint`; `Pow` and `Intrinsic` are external calls. -/
def call_intrinsic (func : Op) (args : List MVal) : ClirIns × Option MVal :=
  match func with
  | .Cmp is_float op => cmp op is_float args
  | .Arith is_float op => arith op is_float args
  | .Bitwise bw => bitwise bw args
  | .Math ff => floatfunc ff args
  | .Div => (.fdiv, fdivExact (args.getD 0 (.int 0)) (args.getD 1 (.int 0)))
  | .Pow => (.extCall .frawk_pow, none)
  | .FloatToInt => (.fcvt_to_sint_sat, none)
  | .IntToFloat => (.fcvt_from_sint, fcvtFromSint (args.getD 0 (.int 0)))
  | .Intrinsic a => (.extCall (.addr a), none)

/-- C7: the division intrinsic always emits floating-point division (`fdiv`),
regardless of the operands; dividing the integer-typed values 6 and 3 (each
promoted through the exact `IntToFloat` conversion) yields the floating-point
value 2.0, and the result is a floating value, never an integer one. -/
theorem div_always_floating (args : List MVal) :
    (call_intrinsic Op.Div args).1 = ClirIns.fdiv ∧
    call_intrinsic Op.IntToFloat [MVal.int 6]
      = (ClirIns.fcvt_from_sint, some (MVal.float 6)) ∧
    call_intrinsic Op.IntToFloat [MVal.int 3]
      = (ClirIns.fcvt_from_sint, some (MVal.float 3)) ∧
    call_intrinsic Op.Div [MVal.float 6, MVal.float 3]
      = (ClirIns.fdiv, some (MVal.float 2)) ∧
    ((call_intrinsic Op.Div [MVal.float 6, MVal.float 3]).2.map MVal.isInt)
      = some false := by
  have h1 : exactF64 6 = true := by unfold exactF64; norm_num
  have h2 : exactF64 3 = true := by unfold exactF64; norm_num
  have h3 : (6 : ℚ) / 3 = 2 := by norm_num
  have h4 : exactF64 (2 : ℚ) = true := by unfold exactF64; norm_num
  have hdiv : call_intrinsic Op.Div [MVal.float 6, MVal.float 3]
      = (ClirIns.fdiv, some (MVal.float 2)) := by
    simp [call_intrinsic, fdivExact, h1, h2, h3, h4]
  refine ⟨rfl, by decide, by decide, hdiv, ?_⟩
  rw [hdiv]
  rfl

/-- C8: the bitwise dispatch maps `LogicalRightShift` and
`ArithmeticRightShift` to the same unsigned-shift instruction `ushr`, so the
two right-shift operators emit identical code and produce equal results on
every pair of integer arguments; the shared semantics genuinely is the
unsigned shift (shifting -1 right by one yields 2^63 - 1, not -1). -/
theorem rshift_variants_agree (args : List MVal) :
    bitwise Bitwise.LogicalRightShift args
      = bitwise Bitwise.ArithmeticRightShift args ∧
    call_intrinsic (Op.Bitwise Bitwise.LogicalRightShift) args
      = call_intrinsic (Op.Bitwise Bitwise.ArithmeticRightShift) args ∧
    (bitwise Bitwise.LogicalRightShift args).1 = ClirIns.ushr ∧
    (∀ x y : Int, bitwise Bitwise.LogicalRightShift [MVal.int x, MVal.int y]
       = (ClirIns.ushr, some (MVal.int (ushrSem x y)))) ∧
    ushrSem (-1) 1 = 2 ^ 63 - 1 := by
  refine ⟨rfl, rfl, rfl, fun x y => rfl, by decide⟩
